import Mathlib

set_option linter.unusedVariables false

/-!
Verification of the slog-to-zerolog bridge: the attribute dispatcher,
severity mapper, group accumulator and handler/adapter logic of the two
adapter files (package `zerolog`, `SlogHandler`; package `zslog`, `Handler`).

The adapter code itself (severity ladder `zerologLevel`, dispatcher
`mapAttr` / `mapAttrs` / `mapAttrAny`, handler methods `Enabled`, `Handle`,
`WithAttrs`, `WithGroup`) is embedded directly from the source.  The
back-end builder surface (`Logger`, `Context`, `Event`, the field-writing
methods and the group stack) is not part of the sources under review, so it
is modelled from the specification, as noted on each such definition.
-/

/-- Back-end severity ladder of the zerolog logger.  Modelled from the spec:
the back-end orders `Trace < Debug < Info < Warn < Error`, with the further
zerolog tiers (`fatal`, `panic`, the no-level marker and the `disabled`
sentinel) above them. -/
inductive Level where
  | trace
  | debug
  | info
  | warn
  | error
  | fatal
  | panik
  | noLevel
  | disabled
deriving DecidableEq, Repr

/-- Numeric value of a back-end severity (zerolog: TraceLevel = -1 and the
rest counting upward), used for threshold comparison. -/
def Level.toInt : Level → Int
  | .trace => -1
  | .debug => 0
  | .info => 1
  | .warn => 2
  | .error => 3
  | .fatal => 4
  | .panik => 5
  | .noLevel => 6
  | .disabled => 7

instance : LE Level := ⟨fun a b => a.toInt ≤ b.toInt⟩

instance : LT Level := ⟨fun a b => a.toInt < b.toInt⟩

instance instDecLeLevel (a b : Level) : Decidable (a ≤ b) :=
  inferInstanceAs (Decidable (a.toInt ≤ b.toInt))

instance instDecLtLevel (a b : Level) : Decidable (a < b) :=
  inferInstanceAs (Decidable (a.toInt < b.toInt))

/-- Textual form of a back-end level, written into the level field of each
record.  Modelled from the spec's back-end encoder contract. -/
def Level.levelStr : Level → String
  | .trace => "trace"
  | .debug => "debug"
  | .info => "info"
  | .warn => "warn"
  | .error => "error"
  | .fatal => "fatal"
  | .panik => "panic"
  | .noLevel => ""
  | .disabled => ""

/-- Front-end (slog) severity constant: Debug = -4. -/
def LevelDebug : Int := -4

/-- Front-end (slog) severity constant: Info = 0. -/
def LevelInfo : Int := 0

/-- Front-end (slog) severity constant: Warn = 4. -/
def LevelWarn : Int := 4

/-- Front-end (slog) severity constant: Error = 8. -/
def LevelError : Int := 8

/-- Name of the level field in an emitted record (zerolog default). -/
def LevelFieldName : String := "level"

/-- Name of the timestamp field in an emitted record (zerolog default). -/
def TimestampFieldName : String := "time"

/-- Name of the message field in an emitted record (zerolog default). -/
def MessageFieldName : String := "message"

/-- Name of the caller field in an emitted record (zerolog default). -/
def CallerFieldName : String := "caller"

/-- Serialized field value produced by the back-end builder methods.  Each
constructor records which typed write method produced the field; the
spec treats the JSON encoder itself as an external collaborator, so bytes
are kept symbolic (ip, mac and raw-JSON payloads stay as the data handed to
the writer). -/
inductive JValue where
  | bool (b : Bool)
  | int (i : Int)
  | uint (u : Nat)
  | float (bits : Nat)
  | str (s : String)
  | time (t : Int)
  | dur (d : Int)
  | ip (a : List Nat)
  | ipNet (a : List Nat) (mask : List Nat)
  | mac (a : List Nat)
  | raw (json : String)
  | obj (fields : List (String × JValue))

/-- Accumulator state of a back-end builder.  Modelled from the spec:
`top` holds the already-written top-level fields, `stack` the currently
open groups (innermost first), each with the fields written inside it so
far. -/
structure Ctx where
  top : List (String × JValue)
  stack : List (String × List (String × JValue))

/-- Write one field at the current scope: inside the innermost open group
when one is open, else at top level.  Modelled from the spec. -/
def Ctx.writeField (c : Ctx) (k : String) (v : JValue) : Ctx :=
  match c.stack with
  | [] => { c with top := c.top ++ [(k, v)] }
  | (n, fs) :: rest => { c with stack := (n, fs ++ [(k, v)]) :: rest }

/-- Open a nested group scope with the given name.  Modelled from the spec. -/
def Ctx.openGroup (c : Ctx) (name : String) : Ctx :=
  { c with stack := (name, []) :: c.stack }

/-- Close the innermost open group, writing it into the enclosing scope as
a nested object field.  Modelled from the spec. -/
def Ctx.closeOne (c : Ctx) : Ctx :=
  match c.stack with
  | [] => c
  | (n, fs) :: rest => Ctx.writeField { top := c.top, stack := rest } n (.obj fs)

/-- Close up to `n` innermost open groups.  Modelled from the spec. -/
def Ctx.closeN (c : Ctx) : Nat → Ctx
  | 0 => c
  | n + 1 => Ctx.closeN c.closeOne n

/-- Close every currently open group.  Modelled from the spec. -/
def Ctx.closeAll (c : Ctx) : Ctx := c.closeN c.stack.length

/-- Close `n` groups, where a negative `n` (the source always passes -1)
means close all currently open groups.  Modelled from the spec. -/
def Ctx.closeGroup (c : Ctx) (n : Int) : Ctx :=
  if n < 0 then c.closeAll else c.closeN n.toNat

/-- Concrete dynamic type of an Any-kind value for the first three cases of
the dispatcher's type switch: `net.IP`, `net.IPNet`, `net.HardwareAddr`
(byte lists), or any other dynamic type. -/
inductive GoTag where
  | ip (a : List Nat)
  | ipNet (a : List Nat) (mask : List Nat)
  | mac (a : List Nat)
  | other
deriving DecidableEq, Repr

/-- A dynamically typed (Go `any`) value as seen by the capability probe:
its concrete-type tag and, for each probed interface, whether the value
implements it and with what result.  `err` is the error message, `stringer`
the rendered string, `jsonM` the JSON-marshal outcome (raw bytes or error
message), `textM` the text-marshal outcome, and `fallback` the encoding the
generic reflective encoder would produce for it. -/
structure AnyVal where
  tag : GoTag
  err : Option String
  stringer : Option String
  jsonM : Option (Except String String)
  textM : Option (Except String String)
  fallback : JValue

/-- A front-end (slog) attribute value: a tagged union over the explicit
kinds plus the Any catch-all and the lazy LogValuer wrapper.  Group carries
its children as attributes (key paired with value). -/
inductive SValue where
  | vBool (b : Bool)
  | vDuration (d : Int)
  | vFloat (bits : Nat)
  | vInt (i : Int)
  | vStr (s : String)
  | vTime (t : Int)
  | vUint (u : Nat)
  | vGroup (g : List (String × SValue))
  | vAny (a : AnyVal)
  | vLogValuer (inner : SValue)

/-- A resolved front-end value: what `slog.Value.Resolve` returns, which by
its contract is never a LogValuer wrapper. -/
inductive RValue where
  | rBool (b : Bool)
  | rDuration (d : Int)
  | rFloat (bits : Nat)
  | rInt (i : Int)
  | rStr (s : String)
  | rTime (t : Int)
  | rUint (u : Nat)
  | rGroup (g : List (String × SValue))
  | rAny (a : AnyVal)

/-- Modelled from the spec: `slog.Value.Resolve` of the standard library
(an external collaborator here), which repeatedly unwraps a LogValuer
wrapper until a non-wrapper value is obtained and leaves every other value
unchanged. -/
def SValue.resolve : SValue → RValue
  | .vLogValuer inner => inner.resolve
  | .vBool b => .rBool b
  | .vDuration d => .rDuration d
  | .vFloat b => .rFloat b
  | .vInt i => .rInt i
  | .vStr s => .rStr s
  | .vTime t => .rTime t
  | .vUint u => .rUint u
  | .vGroup g => .rGroup g
  | .vAny a => .rAny a

theorem SValue.sizeOf_resolve (v : SValue) : sizeOf v.resolve ≤ sizeOf v :=
  match v with
  | .vLogValuer inner => by
      have ih := SValue.sizeOf_resolve inner
      simp only [SValue.resolve]
      simp
      omega
  | .vBool b => by simp [SValue.resolve]
  | .vDuration d => by simp [SValue.resolve]
  | .vFloat b => by simp [SValue.resolve]
  | .vInt i => by simp [SValue.resolve]
  | .vStr s => by simp [SValue.resolve]
  | .vTime t => by simp [SValue.resolve]
  | .vUint u => by simp [SValue.resolve]
  | .vGroup g => by simp [SValue.resolve]
  | .vAny a => by simp [SValue.resolve]

/-- The back-end logger: its configured minimum level and its bound
context.  Modelled from the spec's external-interface contract. -/
structure Logger where
  lvl : Level
  ctx : Ctx

/-- The logger's configured minimum level.  Modelled from the spec. -/
def Logger.GetLevel (l : Logger) : Level := l.lvl

/-- The reusable context builder: wraps the logger it was derived from.
Modelled from the spec. -/
structure Context where
  logger : Logger

/-- Start a context builder from a logger (source: `logger.With()`).
Modelled from the spec. -/
def Logger.With (l : Logger) : Context := ⟨l⟩

/-- Rebind an accumulated context as a logger (source: `ctx.Logger()`).
Modelled from the spec. -/
def Context.toLogger (c : Context) : Logger := c.logger

/-- A single in-flight event.  `enabled` records whether the back-end
level gate passed at creation (a disabled zerolog event is a nil pointer
whose writes are dropped and which emits nothing).  Modelled from the
spec. -/
structure Event where
  enabled : Bool
  lvl : Level
  ctx : Ctx

/-- Open a severity-scoped event on the logger (source:
`logger.WithLevel(lvl)`).  The event inherits the logger's bound context
(including any still-open groups), prefixed by the level field; it is
enabled exactly when the event level passes the logger's configured
minimum and logging is not disabled.  Modelled from the spec. -/
def Logger.WithLevel (l : Logger) (lvl : Level) : Event :=
  { enabled := decide (l.lvl ≤ lvl ∧ lvl ≠ Level.disabled)
    lvl := lvl
    ctx := { top := (LevelFieldName, JValue.str lvl.levelStr) :: l.ctx.top
             stack := l.ctx.stack } }

/-- Return a copy of the logger with the given minimum level (source
method name `Level`).  Modelled from the spec. -/
def Logger.Level (l : Logger) (lvl : Level) : Logger := { l with lvl := lvl }

/-- String field write on an event.  Modelled from the spec. -/
def Event.Str (e : Event) (k s : String) : Event :=
  { e with ctx := e.ctx.writeField k (.str s) }

/-- Timestamp field write on an event.  Modelled from the spec. -/
def Event.Time (e : Event) (k : String) (t : Int) : Event :=
  { e with ctx := e.ctx.writeField k (.time t) }

/-- Close `n` groups on an event, -1 meaning all (package zerolog spelling).
Modelled from the spec. -/
def Event.closeGroup (e : Event) (n : Int) : Event :=
  { e with ctx := e.ctx.closeGroup n }

/-- Close `n` groups on an event, -1 meaning all (package zslog spelling;
the same back-end operation).  Modelled from the spec. -/
def Event.Ungroup (e : Event) (n : Int) : Event := e.closeGroup n

/-- Finalize an event with its message: write the message field at the
current scope and emit the serialized record, or emit nothing when the
event is disabled.  Modelled from the spec. -/
def Event.Msg (e : Event) (m : String) : Option (List (String × JValue)) :=
  if e.enabled then
    some ((e.ctx.writeField MessageFieldName (.str m)).closeAll.top)
  else
    none

/-- Open a group on a context builder (package zerolog spelling).
Modelled from the spec. -/
def Context.openGroup (c : Context) (name : String) : Context :=
  ⟨{ c.logger with ctx := c.logger.ctx.openGroup name }⟩

/-- Open a group on a context builder (package zslog spelling; the same
back-end operation).  Modelled from the spec. -/
def Context.Group (c : Context) (name : String) : Context := c.openGroup name

/-- The field-writing capability set shared by `Context` and `Event`
(source interface `zlogWriter`).  Method names carry a `w` prefix; they
stand for the source methods Bool, Dur, Float64, Int64, Str, Time, Uint64,
Interface, AnErr, Stringer, IPAddr, IPPrefix, MACAddr, RawJSON and
grouped/Grouped. -/
class ZlogWriter (T : Type) where
  wBool : T → String → Bool → T
  wDur : T → String → Int → T
  wFloat64 : T → String → Nat → T
  wInt64 : T → String → Int → T
  wStr : T → String → String → T
  wTime : T → String → Int → T
  wUint64 : T → String → Nat → T
  wInterface : T → String → AnyVal → T
  wAnErr : T → String → String → T
  wStringer : T → String → String → T
  wIPAddr : T → String → List Nat → T
  wIPNet : T → String → List Nat → List Nat → T
  wMACAddr : T → String → List Nat → T
  wRawJSON : T → String → String → T
  grouped : T → String → (T → T) → T

/-- The capability set instantiated on the bare accumulator state.
Modelled from the spec's builder contract. -/
instance instZlogWriterCtx : ZlogWriter Ctx where
  wBool c k b := c.writeField k (.bool b)
  wDur c k d := c.writeField k (.dur d)
  wFloat64 c k b := c.writeField k (.float b)
  wInt64 c k i := c.writeField k (.int i)
  wStr c k s := c.writeField k (.str s)
  wTime c k t := c.writeField k (.time t)
  wUint64 c k u := c.writeField k (.uint u)
  wInterface c k v := c.writeField k v.fallback
  wAnErr c k e := c.writeField k (.str e)
  wStringer c k s := c.writeField k (.str s)
  wIPAddr c k a := c.writeField k (.ip a)
  wIPNet c k a m := c.writeField k (.ipNet a m)
  wMACAddr c k a := c.writeField k (.mac a)
  wRawJSON c k j := c.writeField k (.raw j)
  grouped c k f := (f (c.openGroup k)).closeOne

/-- The capability set on events: each write goes to the event's
accumulator; the enablement flag and level are untouched.  Modelled from
the spec. -/
instance instZlogWriterEvent : ZlogWriter Event where
  wBool e k b := { e with ctx := e.ctx.writeField k (.bool b) }
  wDur e k d := { e with ctx := e.ctx.writeField k (.dur d) }
  wFloat64 e k b := { e with ctx := e.ctx.writeField k (.float b) }
  wInt64 e k i := { e with ctx := e.ctx.writeField k (.int i) }
  wStr e k s := { e with ctx := e.ctx.writeField k (.str s) }
  wTime e k t := { e with ctx := e.ctx.writeField k (.time t) }
  wUint64 e k u := { e with ctx := e.ctx.writeField k (.uint u) }
  wInterface e k v := { e with ctx := e.ctx.writeField k v.fallback }
  wAnErr e k er := { e with ctx := e.ctx.writeField k (.str er) }
  wStringer e k s := { e with ctx := e.ctx.writeField k (.str s) }
  wIPAddr e k a := { e with ctx := e.ctx.writeField k (.ip a) }
  wIPNet e k a m := { e with ctx := e.ctx.writeField k (.ipNet a m) }
  wMACAddr e k a := { e with ctx := e.ctx.writeField k (.mac a) }
  wRawJSON e k j := { e with ctx := e.ctx.writeField k (.raw j) }
  grouped e k f :=
    let e' := f { e with ctx := e.ctx.openGroup k }
    { e' with ctx := e'.ctx.closeOne }

/-- The capability set on context builders: each write goes to the wrapped
logger's accumulator.  Modelled from the spec. -/
instance instZlogWriterContext : ZlogWriter Context where
  wBool c k b := ⟨{ c.logger with ctx := c.logger.ctx.writeField k (.bool b) }⟩
  wDur c k d := ⟨{ c.logger with ctx := c.logger.ctx.writeField k (.dur d) }⟩
  wFloat64 c k b := ⟨{ c.logger with ctx := c.logger.ctx.writeField k (.float b) }⟩
  wInt64 c k i := ⟨{ c.logger with ctx := c.logger.ctx.writeField k (.int i) }⟩
  wStr c k s := ⟨{ c.logger with ctx := c.logger.ctx.writeField k (.str s) }⟩
  wTime c k t := ⟨{ c.logger with ctx := c.logger.ctx.writeField k (.time t) }⟩
  wUint64 c k u := ⟨{ c.logger with ctx := c.logger.ctx.writeField k (.uint u) }⟩
  wInterface c k v := ⟨{ c.logger with ctx := c.logger.ctx.writeField k v.fallback }⟩
  wAnErr c k e := ⟨{ c.logger with ctx := c.logger.ctx.writeField k (.str e) }⟩
  wStringer c k s := ⟨{ c.logger with ctx := c.logger.ctx.writeField k (.str s) }⟩
  wIPAddr c k a := ⟨{ c.logger with ctx := c.logger.ctx.writeField k (.ip a) }⟩
  wIPNet c k a m := ⟨{ c.logger with ctx := c.logger.ctx.writeField k (.ipNet a m) }⟩
  wMACAddr c k a := ⟨{ c.logger with ctx := c.logger.ctx.writeField k (.mac a) }⟩
  wRawJSON c k j := ⟨{ c.logger with ctx := c.logger.ctx.writeField k (.raw j) }⟩
  grouped c k f :=
    let c' := f ⟨{ c.logger with ctx := c.logger.ctx.openGroup k }⟩
    ⟨{ c'.logger with ctx := c'.logger.ctx.closeOne }⟩

/-- A front-end log record: timestamp, front-end level, message, call-site
program counter (0 meaning unavailable) and the attribute sequence. -/
structure SRecord where
  time : Int
  level : Int
  msg : String
  pc : Nat
  attrs : List (String × SValue)

namespace Zerolog

/-- Severity mapper of the package-zerolog adapter (source
`zerologLevel`): maps a front-end slog level into a back-end level by the
half-open threshold ladder. -/
def zerologLevel (lvl : Int) : Level :=
  if lvl < LevelDebug then .trace
  else if lvl < LevelInfo then .debug
  else if lvl < LevelWarn then .info
  else if lvl < LevelError then .warn
  else .error

/-- Ordered capability probe for Any-kind values (source `mapAttrAny`):
concrete net.IP, net.IPNet, net.HardwareAddr first, then the error,
Stringer, json.Marshaler and encoding.TextMarshaler interfaces in order,
finally the generic reflective Interface fallback. -/
def mapAttrAny {T : Type} [ZlogWriter T] (target : T) (key : String) (value : AnyVal) : T :=
  match value.tag with
  | .ip a => ZlogWriter.wIPAddr target key a
  | .ipNet a m => ZlogWriter.wIPNet target key a m
  | .mac a => ZlogWriter.wMACAddr target key a
  | .other =>
    match value.err with
    | some e => ZlogWriter.wAnErr target key e
    | none =>
      match value.stringer with
      | some s => ZlogWriter.wStringer target key s
      | none =>
        match value.jsonM with
        | some (Except.ok txt) => ZlogWriter.wRawJSON target key txt
        | some (Except.error e) => ZlogWriter.wStr target key ("!ERROR:" ++ e)
        | none =>
          match value.textM with
          | some (Except.ok txt) => ZlogWriter.wStr target key txt
          | some (Except.error e) => ZlogWriter.wStr target key ("!ERROR:" ++ e)
          | none => ZlogWriter.wInterface target key value

mutual

/-- Write a sequence of attributes into the target by folding `mapAttr`
(source `mapAttrs`). -/
def mapAttrs {T : Type} [ZlogWriter T] (target : T) (l : List (String × SValue)) : T :=
  match l with
  | [] => target
  | a :: rest => mapAttrs (mapAttr target a) rest
termination_by sizeOf l
decreasing_by
  all_goals first
    | omega
    | (obtain ⟨k, v⟩ := a; simp; try omega)

/-- Write one attribute into the target (source `mapAttr`): resolve the
value first, then dispatch on the resolved value's kind. -/
def mapAttr {T : Type} [ZlogWriter T] (target : T) (a : String × SValue) : T :=
  mapResolved target a.1 a.2.resolve
termination_by 1 + sizeOf a.2
decreasing_by
  have := SValue.sizeOf_resolve a.2
  omega

/-- The kind switch of `mapAttr`, over the already-resolved value: Group
recurses through `grouped`, the seven explicit kinds go to their dedicated
write methods, and Any falls through to `mapAttrAny`. -/
def mapResolved {T : Type} [ZlogWriter T] (target : T) (key : String) : RValue → T
  | .rGroup g => ZlogWriter.grouped target key (fun t => mapAttrs t g)
  | .rBool b => ZlogWriter.wBool target key b
  | .rDuration d => ZlogWriter.wDur target key d
  | .rFloat b => ZlogWriter.wFloat64 target key b
  | .rInt i => ZlogWriter.wInt64 target key i
  | .rStr s => ZlogWriter.wStr target key s
  | .rTime t => ZlogWriter.wTime target key t
  | .rUint u => ZlogWriter.wUint64 target key u
  | .rAny v => mapAttrAny target key v
termination_by rv => sizeOf rv
decreasing_by
  simp
  try omega

end

/-- Options of the package-zerolog adapter (source
`SlogHandlerOptions`): call-site capture flag and optional explicit
minimum level (in front-end units). -/
structure SlogHandlerOptions where
  AddSource : Bool
  Level : Option Int

/-- The package-zerolog adapter (source `SlogHandler`): options plus the
bound back-end logger. -/
structure SlogHandler where
  opts : SlogHandlerOptions
  logger : Logger

/-- Constructor of the adapter (source `NewSlogHandler`): nil options mean
defaults; the options value is copied. -/
def NewSlogHandler (logger : Logger) (opts : Option SlogHandlerOptions) : SlogHandler :=
  { opts := opts.getD { AddSource := false, Level := none }, logger := logger }

/-- Enablement check (source `SlogHandler.Enabled`): compare in front-end
units against the explicit option level when set, else convert the
candidate and compare against the bound logger's configured level. -/
def SlogHandler.Enabled (h : SlogHandler) (lvl : Int) : Bool :=
  match h.opts.Level with
  | some m => decide (m ≤ lvl)
  | none => decide (h.logger.GetLevel ≤ zerologLevel lvl)

/-- Record handling (source `SlogHandler.Handle`): apply the explicit
minimum-level override to the logger if set, open the event at the mapped
record level, dispatch every record attribute, optionally write the caller
field, close all open groups, then write timestamp and message.  The
call-site renderer `src` stands for the runtime frame lookup.  The
returned value is the record written to the sink, if any. -/
def SlogHandler.Handle (src : Nat → String) (h : SlogHandler) (rec : SRecord) :
    Option (List (String × JValue)) :=
  let logger := match h.opts.Level with
    | some m => h.logger.Level (zerologLevel m)
    | none => h.logger
  let evt := logger.WithLevel (zerologLevel rec.level)
  let evt := mapAttrs evt rec.attrs
  let evt := if h.opts.AddSource ∧ 0 < rec.pc then evt.Str CallerFieldName (src rec.pc) else evt
  let evt := evt.closeGroup (-1)
  let evt := evt.Time TimestampFieldName rec.time
  evt.Msg rec.msg

/-- Attribute binding (source `SlogHandler.WithAttrs`): a new handler with
the same options and a logger rebound from the context obtained by folding
the attributes onto the current bound context. -/
def SlogHandler.WithAttrs (h : SlogHandler) (attrs : List (String × SValue)) : SlogHandler :=
  { opts := h.opts, logger := (mapAttrs h.logger.With attrs).toLogger }

/-- Group opening (source `SlogHandler.WithGroup`): a new handler with the
same options and a logger rebound from the current context with a group of
the given name opened. -/
def SlogHandler.WithGroup (h : SlogHandler) (name : String) : SlogHandler :=
  { opts := h.opts, logger := (h.logger.With.openGroup name).toLogger }

end Zerolog

namespace Zslog

/-- Severity mapper of the package-zslog adapter (source `zerologLevel`
in slog.go): the same half-open threshold ladder. -/
def zerologLevel (lvl : Int) : Level :=
  if lvl < LevelDebug then .trace
  else if lvl < LevelInfo then .debug
  else if lvl < LevelWarn then .info
  else if lvl < LevelError then .warn
  else .error

/-- Ordered capability probe of the package-zslog adapter (source
`mapAttrAny` in slog.go), same case order as the zerolog variant. -/
def mapAttrAny {T : Type} [ZlogWriter T] (target : T) (key : String) (value : AnyVal) : T :=
  match value.tag with
  | .ip a => ZlogWriter.wIPAddr target key a
  | .ipNet a m => ZlogWriter.wIPNet target key a m
  | .mac a => ZlogWriter.wMACAddr target key a
  | .other =>
    match value.err with
    | some e => ZlogWriter.wAnErr target key e
    | none =>
      match value.stringer with
      | some s => ZlogWriter.wStringer target key s
      | none =>
        match value.jsonM with
        | some (Except.ok txt) => ZlogWriter.wRawJSON target key txt
        | some (Except.error e) => ZlogWriter.wStr target key ("!ERROR:" ++ e)
        | none =>
          match value.textM with
          | some (Except.ok txt) => ZlogWriter.wStr target key txt
          | some (Except.error e) => ZlogWriter.wStr target key ("!ERROR:" ++ e)
          | none => ZlogWriter.wInterface target key value

mutual

/-- Attribute-sequence fold of the package-zslog adapter (source
`mapAttrs` in slog.go). -/
def mapAttrs {T : Type} [ZlogWriter T] (target : T) (l : List (String × SValue)) : T :=
  match l with
  | [] => target
  | a :: rest => mapAttrs (mapAttr target a) rest
termination_by sizeOf l
decreasing_by
  all_goals first
    | omega
    | (obtain ⟨k, v⟩ := a; simp; try omega)

/-- Single-attribute dispatch of the package-zslog adapter (source
`mapAttr` in slog.go): resolve, then dispatch on the resolved kind. -/
def mapAttr {T : Type} [ZlogWriter T] (target : T) (a : String × SValue) : T :=
  mapResolved target a.1 a.2.resolve
termination_by 1 + sizeOf a.2
decreasing_by
  have := SValue.sizeOf_resolve a.2
  omega

/-- The kind switch of the package-zslog `mapAttr`, over the resolved
value (Grouped is the zslog spelling of the nested-scope write). -/
def mapResolved {T : Type} [ZlogWriter T] (target : T) (key : String) : RValue → T
  | .rGroup g => ZlogWriter.grouped target key (fun t => mapAttrs t g)
  | .rBool b => ZlogWriter.wBool target key b
  | .rDuration d => ZlogWriter.wDur target key d
  | .rFloat b => ZlogWriter.wFloat64 target key b
  | .rInt i => ZlogWriter.wInt64 target key i
  | .rStr s => ZlogWriter.wStr target key s
  | .rTime t => ZlogWriter.wTime target key t
  | .rUint u => ZlogWriter.wUint64 target key u
  | .rAny v => mapAttrAny target key v
termination_by rv => sizeOf rv
decreasing_by
  simp
  try omega

end

/-- Options of the package-zslog adapter (source `HandlerOptions`). -/
structure HandlerOptions where
  AddSource : Bool
  Level : Option Int

/-- The package-zslog adapter (source `Handler`): options plus the bound
back-end logger. -/
structure Handler where
  opts : HandlerOptions
  logger : Logger

/-- Constructor of the zslog adapter (source `NewHandler`). -/
def NewHandler (logger : Logger) (opts : Option HandlerOptions) : Handler :=
  { opts := opts.getD { AddSource := false, Level := none }, logger := logger }

/-- Enablement check of the zslog adapter (source `Handler.Enabled`). -/
def Handler.Enabled (h : Handler) (lvl : Int) : Bool :=
  match h.opts.Level with
  | some m => decide (m ≤ lvl)
  | none => decide (h.logger.GetLevel ≤ zerologLevel lvl)

/-- Record handling of the zslog adapter (source `Handler.Handle`); the
group flush is spelled `Ungroup(-1)` in this variant. -/
def Handler.Handle (src : Nat → String) (h : Handler) (rec : SRecord) :
    Option (List (String × JValue)) :=
  let logger := match h.opts.Level with
    | some m => h.logger.Level (zerologLevel m)
    | none => h.logger
  let evt := logger.WithLevel (zerologLevel rec.level)
  let evt := mapAttrs evt rec.attrs
  let evt := if h.opts.AddSource ∧ 0 < rec.pc then evt.Str CallerFieldName (src rec.pc) else evt
  let evt := evt.Ungroup (-1)
  let evt := evt.Time TimestampFieldName rec.time
  evt.Msg rec.msg

/-- Attribute binding of the zslog adapter (source `Handler.WithAttrs`). -/
def Handler.WithAttrs (h : Handler) (attrs : List (String × SValue)) : Handler :=
  { opts := h.opts, logger := (mapAttrs h.logger.With attrs).toLogger }

/-- Group opening of the zslog adapter (source `Handler.WithGroup`); the
context operation is spelled `Group` in this variant. -/
def Handler.WithGroup (h : Handler) (name : String) : Handler :=
  { opts := h.opts, logger := (h.logger.With.Group name).toLogger }

end Zslog

/-- Field-for-field translation of a package-zerolog adapter value into a
package-zslog adapter value: equal configuration (same option values, same
bound logger). -/
def toZslog (h : Zerolog.SlogHandler) : Zslog.Handler :=
  { opts := { AddSource := h.opts.AddSource, Level := h.opts.Level }
    logger := h.logger }

theorem zl_mapAttrs_nil {T : Type} [ZlogWriter T] (t : T) :
    Zerolog.mapAttrs t [] = t := by
  rw [Zerolog.mapAttrs]

theorem zl_mapAttrs_cons {T : Type} [ZlogWriter T] (t : T) (a : String × SValue)
    (l : List (String × SValue)) :
    Zerolog.mapAttrs t (a :: l) = Zerolog.mapAttrs (Zerolog.mapAttr t a) l := by
  rw [Zerolog.mapAttrs]

theorem zl_mapAttr_def {T : Type} [ZlogWriter T] (t : T) (a : String × SValue) :
    Zerolog.mapAttr t a = Zerolog.mapResolved t a.1 a.2.resolve := by
  rw [Zerolog.mapAttr]

theorem zs_mapAttrs_nil {T : Type} [ZlogWriter T] (t : T) :
    Zslog.mapAttrs t [] = t := by
  rw [Zslog.mapAttrs]

theorem zs_mapAttrs_cons {T : Type} [ZlogWriter T] (t : T) (a : String × SValue)
    (l : List (String × SValue)) :
    Zslog.mapAttrs t (a :: l) = Zslog.mapAttrs (Zslog.mapAttr t a) l := by
  rw [Zslog.mapAttrs]

theorem zs_mapAttr_def {T : Type} [ZlogWriter T] (t : T) (a : String × SValue) :
    Zslog.mapAttr t a = Zslog.mapResolved t a.1 a.2.resolve := by
  rw [Zslog.mapAttr]

theorem ctx_writeField_stack_length (c : Ctx) (k : String) (v : JValue) :
    (c.writeField k v).stack.length = c.stack.length := by
  unfold Ctx.writeField
  cases h : c.stack <;> simp

theorem ctx_closeN_stack_nil : ∀ (n : Nat) (c : Ctx), c.stack.length ≤ n → ((c.closeN n).stack) = [] := by
  intro n
  induction n with
  | zero =>
      intro c hc
      simp [Ctx.closeN]
      exact List.eq_nil_of_length_eq_zero (Nat.le_zero.mp hc)
  | succ n ih =>
      intro c hc
      rw [Ctx.closeN]
      apply ih
      unfold Ctx.closeOne
      cases h : c.stack with
      | nil => simp [h]
      | cons p rest =>
          obtain ⟨nm, fs⟩ := p
          have := ctx_writeField_stack_length { top := c.top, stack := rest } nm (.obj fs)
          simp only [this]
          have : c.stack.length = rest.length + 1 := by rw [h]; simp
          omega

theorem ctx_closeAll_stack_nil (c : Ctx) : (c.closeAll).stack = [] :=
  ctx_closeN_stack_nil c.stack.length c (Nat.le_refl _)

theorem ctx_closeAll_of_nil (c : Ctx) (h : c.stack = []) : c.closeAll = c := by
  unfold Ctx.closeAll
  rw [h]
  simp [Ctx.closeN]

theorem ctx_writeField_of_nil (c : Ctx) (k : String) (v : JValue) (h : c.stack = []) :
    c.writeField k v = { top := c.top ++ [(k, v)], stack := [] } := by
  unfold Ctx.writeField
  rw [h]

theorem event_grouped_def (e : Event) (k : String) (f : Event → Event) :
    ZlogWriter.grouped e k f =
      { f { e with ctx := e.ctx.openGroup k } with
        ctx := (f { e with ctx := e.ctx.openGroup k }).ctx.closeOne } := rfl

theorem zl_event_enabled_aux : ∀ (n : Nat),
    (∀ (e : Event) (l : List (String × SValue)), sizeOf l ≤ n →
      (Zerolog.mapAttrs e l).enabled = e.enabled) ∧
    (∀ (e : Event) (a : String × SValue), sizeOf a ≤ n →
      (Zerolog.mapAttr e a).enabled = e.enabled) ∧
    (∀ (e : Event) (k : String) (rv : RValue), sizeOf rv ≤ n →
      (Zerolog.mapResolved e k rv).enabled = e.enabled) := by
  intro n
  induction n using Nat.strong_induction_on with
  | _ n ih =>
    refine ⟨?_, ?_, ?_⟩
    · intro e l hl
      match l with
      | [] => rw [zl_mapAttrs_nil]
      | a :: rest =>
          rw [zl_mapAttrs_cons]
          obtain ⟨k, v⟩ := a
          simp only [List.cons.sizeOf_spec, Prod.mk.sizeOf_spec] at hl
          have h1 : sizeOf rest < n := by omega
          have h2 : sizeOf ((k, v) : String × SValue) < n := by simp; omega
          calc (Zerolog.mapAttrs (Zerolog.mapAttr e (k, v)) rest).enabled
              = (Zerolog.mapAttr e (k, v)).enabled := (ih _ h1).1 _ rest (Nat.le_refl _)
            _ = e.enabled := (ih _ h2).2.1 e (k, v) (Nat.le_refl _)
    · intro e a ha
      obtain ⟨k, v⟩ := a
      rw [zl_mapAttr_def]
      simp only [Prod.mk.sizeOf_spec] at ha
      have hv := SValue.sizeOf_resolve v
      have hr : sizeOf v.resolve < n := by omega
      exact (ih _ hr).2.2 e k v.resolve (Nat.le_refl _)
    · intro e k rv hrv
      match rv with
      | .rGroup g =>
          simp only [Zerolog.mapResolved]
          rw [event_grouped_def]
          have hg : sizeOf g < n := by simp at hrv; omega
          exact (ih _ hg).1 _ g (Nat.le_refl _)
      | .rBool b => simp only [Zerolog.mapResolved]; rfl
      | .rDuration d => simp only [Zerolog.mapResolved]; rfl
      | .rFloat b => simp only [Zerolog.mapResolved]; rfl
      | .rInt i => simp only [Zerolog.mapResolved]; rfl
      | .rStr s => simp only [Zerolog.mapResolved]; rfl
      | .rTime t => simp only [Zerolog.mapResolved]; rfl
      | .rUint u => simp only [Zerolog.mapResolved]; rfl
      | .rAny v =>
          simp only [Zerolog.mapResolved]
          unfold Zerolog.mapAttrAny
          repeat' split
          all_goals rfl

theorem zl_event_mapAttrs_enabled (e : Event) (l : List (String × SValue)) :
    (Zerolog.mapAttrs e l).enabled = e.enabled :=
  (zl_event_enabled_aux (sizeOf l)).1 e l (Nat.le_refl _)

theorem zl_zs_map_eq_aux : ∀ (n : Nat) {T : Type} [inst : ZlogWriter T],
    (∀ (t : T) (l : List (String × SValue)), sizeOf l ≤ n →
      Zerolog.mapAttrs t l = Zslog.mapAttrs t l) ∧
    (∀ (t : T) (a : String × SValue), sizeOf a ≤ n →
      Zerolog.mapAttr t a = Zslog.mapAttr t a) ∧
    (∀ (t : T) (k : String) (rv : RValue), sizeOf rv ≤ n →
      Zerolog.mapResolved t k rv = Zslog.mapResolved t k rv) := by
  intro n
  induction n using Nat.strong_induction_on with
  | _ n ih =>
    intro T inst
    refine ⟨?_, ?_, ?_⟩
    · intro t l hl
      match l with
      | [] => rw [zl_mapAttrs_nil, zs_mapAttrs_nil]
      | a :: rest =>
          rw [zl_mapAttrs_cons, zs_mapAttrs_cons]
          obtain ⟨k, v⟩ := a
          simp only [List.cons.sizeOf_spec, Prod.mk.sizeOf_spec] at hl
          have h1 : sizeOf rest < n := by omega
          have h2 : sizeOf ((k, v) : String × SValue) < n := by simp; omega
          rw [(ih _ h2).2.1 t (k, v) (Nat.le_refl _)]
          exact (ih _ h1).1 _ rest (Nat.le_refl _)
    · intro t a ha
      obtain ⟨k, v⟩ := a
      rw [zl_mapAttr_def, zs_mapAttr_def]
      simp only [Prod.mk.sizeOf_spec] at ha
      have hv := SValue.sizeOf_resolve v
      have hr : sizeOf v.resolve < n := by omega
      exact (ih _ hr).2.2 t k v.resolve (Nat.le_refl _)
    · intro t k rv hrv
      match rv with
      | .rGroup g =>
          simp only [Zerolog.mapResolved, Zslog.mapResolved]
          have hg : sizeOf g < n := by simp at hrv; omega
          congr 1
          funext x
          exact (ih _ hg).1 x g (Nat.le_refl _)
      | .rBool b => simp only [Zerolog.mapResolved, Zslog.mapResolved]
      | .rDuration d => simp only [Zerolog.mapResolved, Zslog.mapResolved]
      | .rFloat b => simp only [Zerolog.mapResolved, Zslog.mapResolved]
      | .rInt i => simp only [Zerolog.mapResolved, Zslog.mapResolved]
      | .rStr s => simp only [Zerolog.mapResolved, Zslog.mapResolved]
      | .rTime t' => simp only [Zerolog.mapResolved, Zslog.mapResolved]
      | .rUint u => simp only [Zerolog.mapResolved, Zslog.mapResolved]
      | .rAny v =>
          simp only [Zerolog.mapResolved, Zslog.mapResolved]
          rfl

theorem zl_zs_mapAttrs_eq {T : Type} [ZlogWriter T] (t : T) (l : List (String × SValue)) :
    Zerolog.mapAttrs t l = Zslog.mapAttrs t l :=
  (zl_zs_map_eq_aux (sizeOf l)).1 t l (Nat.le_refl _)

theorem zl_zs_zerologLevel_eq (l : Int) : Zerolog.zerologLevel l = Zslog.zerologLevel l := rfl


theorem ctx_grouped_def (c : Ctx) (k : String) (f : Ctx → Ctx) :
    ZlogWriter.grouped c k f = (f (c.openGroup k)).closeOne := rfl

theorem event_wStr_def (e : Event) (k s : String) :
    ZlogWriter.wStr e k s = { e with ctx := e.ctx.writeField k (.str s) } := rfl

/-- C2: the severity mapping `zerologLevel` is a pure total function placing
every front-end level in exactly one half-open bucket — below Debug maps to
Trace, [Debug, Info) to Debug, [Info, Warn) to Info, [Warn, Error) to Warn,
and at or above Error to Error — and the ten boundary values Debug-1, Debug,
Info-1, Info, Warn-1, Warn, Warn+1, Error-1, Error, Error+1 map exactly per
that table. -/
theorem zerologLevel_buckets (l : Int) :
    ((Zerolog.zerologLevel l = Level.trace) ↔ l < LevelDebug) ∧
    ((Zerolog.zerologLevel l = Level.debug) ↔ (LevelDebug ≤ l ∧ l < LevelInfo)) ∧
    ((Zerolog.zerologLevel l = Level.info) ↔ (LevelInfo ≤ l ∧ l < LevelWarn)) ∧
    ((Zerolog.zerologLevel l = Level.warn) ↔ (LevelWarn ≤ l ∧ l < LevelError)) ∧
    ((Zerolog.zerologLevel l = Level.error) ↔ LevelError ≤ l) ∧
    Zerolog.zerologLevel (LevelDebug - 1) = Level.trace ∧
    Zerolog.zerologLevel LevelDebug = Level.debug ∧
    Zerolog.zerologLevel (LevelInfo - 1) = Level.debug ∧
    Zerolog.zerologLevel LevelInfo = Level.info ∧
    Zerolog.zerologLevel (LevelWarn - 1) = Level.info ∧
    Zerolog.zerologLevel LevelWarn = Level.warn ∧
    Zerolog.zerologLevel (LevelWarn + 1) = Level.warn ∧
    Zerolog.zerologLevel (LevelError - 1) = Level.warn ∧
    Zerolog.zerologLevel LevelError = Level.error ∧
    Zerolog.zerologLevel (LevelError + 1) = Level.error := by
  refine ⟨?_, ?_, ?_, ?_, ?_, ?_, ?_, ?_, ?_, ?_, ?_, ?_, ?_, ?_, ?_⟩ <;>
  · unfold Zerolog.zerologLevel LevelDebug LevelInfo LevelWarn LevelError
    split_ifs <;> simp_all <;> omega

/-- C3: the enablement check compares in front-end units against the
explicit minimum-level option when one is set (`Enabled l` iff `l >= m`),
and otherwise converts the candidate through the severity ladder and
compares against the bound back-end logger's configured level. -/
theorem enabled_dual_path (h : Zerolog.SlogHandler) (l m : Int) :
    (h.opts.Level = some m → (h.Enabled l = true ↔ m ≤ l)) ∧
    (h.opts.Level = none →
      (h.Enabled l = true ↔ h.logger.GetLevel ≤ Zerolog.zerologLevel l)) := by
  constructor
  · intro hm
    unfold Zerolog.SlogHandler.Enabled
    rw [hm]
    simp
  · intro hm
    unfold Zerolog.SlogHandler.Enabled
    rw [hm]
    simp

/-- Witness for C3: a handler with explicit minimum 0 is enabled at
candidate level 3. -/
theorem enabled_dual_path_witness :
    Zerolog.SlogHandler.Enabled ⟨⟨false, some 0⟩, ⟨Level.info, ⟨[], []⟩⟩⟩ 3 = true ↔ (0 : Int) ≤ 3 :=
  (enabled_dual_path ⟨⟨false, some 0⟩, ⟨Level.info, ⟨[], []⟩⟩⟩ 3 0).1 rfl

/-- C1: for Any-kind values the dispatcher probes capabilities in the fixed
order network IP, network prefix, MAC address, error, Stringer, JSON
marshaler, text marshaler, then the reflective fallback, and the first
matching capability alone decides; in particular a value implementing both
a JSON-marshal capability and a stringer capability takes the stringer
path regardless of its marshalers. -/
theorem mapAttrAny_probe_order {T : Type} [ZlogWriter T] (t : T) (k : String) (v : AnyVal) :
    (∀ a, v.tag = GoTag.ip a → Zerolog.mapAttrAny t k v = ZlogWriter.wIPAddr t k a) ∧
    (∀ a m, v.tag = GoTag.ipNet a m → Zerolog.mapAttrAny t k v = ZlogWriter.wIPNet t k a m) ∧
    (∀ a, v.tag = GoTag.mac a → Zerolog.mapAttrAny t k v = ZlogWriter.wMACAddr t k a) ∧
    (∀ e, v.tag = GoTag.other → v.err = some e →
      Zerolog.mapAttrAny t k v = ZlogWriter.wAnErr t k e) ∧
    (∀ s, v.tag = GoTag.other → v.err = none → v.stringer = some s →
      Zerolog.mapAttrAny t k v = ZlogWriter.wStringer t k s) ∧
    (∀ b, v.tag = GoTag.other → v.err = none → v.stringer = none →
      v.jsonM = some (Except.ok b) → Zerolog.mapAttrAny t k v = ZlogWriter.wRawJSON t k b) ∧
    (∀ s, v.tag = GoTag.other → v.err = none → v.stringer = none → v.jsonM = none →
      v.textM = some (Except.ok s) → Zerolog.mapAttrAny t k v = ZlogWriter.wStr t k s) ∧
    (v.tag = GoTag.other → v.err = none → v.stringer = none → v.jsonM = none →
      v.textM = none → Zerolog.mapAttrAny t k v = ZlogWriter.wInterface t k v) := by
  obtain ⟨tag, err, st, js, tx, fb⟩ := v
  refine ⟨?_, ?_, ?_, ?_, ?_, ?_, ?_, ?_⟩ <;>
  · intros
    subst_vars
    simp [Zerolog.mapAttrAny]

/-- Witness for C1: a value with both a stringer result and a successful
JSON marshaler is written through the stringer path. -/
theorem mapAttrAny_probe_order_witness :
    Zerolog.mapAttrAny (⟨[], []⟩ : Ctx) "k"
        ⟨GoTag.other, none, some "s", some (Except.ok "null"), none, JValue.obj []⟩ =
      ZlogWriter.wStringer (⟨[], []⟩ : Ctx) "k" "s" :=
  (mapAttrAny_probe_order (⟨[], []⟩ : Ctx) "k"
      ⟨GoTag.other, none, some "s", some (Except.ok "null"), none, JValue.obj []⟩).2.2.2.2.1
    "s" rfl rfl rfl

/-- C10: the dispatcher resolves an attribute's value before inspecting its
kind: a lazy LogValuer wrapper is dispatched exactly as its resolved value,
resolution strips the wrapper, and the kind switch only ever sees the
resolved value. -/
theorem resolve_before_dispatch {T : Type} [ZlogWriter T] (t : T) (k : String) (v : SValue) :
    (Zerolog.mapAttr t (k, SValue.vLogValuer v) = Zerolog.mapAttr t (k, v)) ∧
    (SValue.resolve (SValue.vLogValuer v) = v.resolve) ∧
    (Zerolog.mapAttr t (k, v) = Zerolog.mapResolved t k v.resolve) := by
  refine ⟨?_, rfl, ?_⟩
  · rw [zl_mapAttr_def, zl_mapAttr_def]
    simp only [SValue.resolve]
  · rw [zl_mapAttr_def]

/-- C8: WithAttrs and WithGroup never mutate the receiver handler: each
returns a new handler value sharing the same options whose bound logger is
derived from the original by folding the attributes through the dispatcher,
respectively by opening a group of the given name, and derivation chains
compose from the same unchanged root. -/
theorem withAttrs_withGroup_immutable (h : Zerolog.SlogHandler)
    (attrs : List (String × SValue)) (name : String) :
    ((h.WithAttrs attrs).opts = h.opts) ∧
    ((h.WithAttrs attrs).logger = (Zerolog.mapAttrs h.logger.With attrs).toLogger) ∧
    ((h.WithGroup name).opts = h.opts) ∧
    ((h.WithGroup name).logger = (h.logger.With.openGroup name).toLogger) ∧
    (((h.WithGroup name).WithAttrs attrs).opts = h.opts) ∧
    (((h.WithGroup name).WithAttrs attrs).logger =
      (Zerolog.mapAttrs (h.logger.With.openGroup name).toLogger.With attrs).toLogger) :=
  ⟨rfl, rfl, rfl, rfl, rfl, rfl⟩

/-- C4: an attribute of Group kind with zero children still produces the
group's key mapped to an empty nested object — on any builder state the
dispatcher writes the key with an empty object, and a record logged with a
zero-child group named attribute carries that key in the serialized record
rather than omitting it. -/
theorem empty_group_emitted :
    (∀ (c : Ctx) (k : String),
      Zerolog.mapAttr c (k, SValue.vGroup []) = c.writeField k (JValue.obj [])) ∧
    (∀ (name : String) (t : Int) (msg : String),
      ∃ fields,
        Zerolog.SlogHandler.Handle (fun _ => "") ⟨⟨false, none⟩, ⟨Level.trace, ⟨[], []⟩⟩⟩
            ⟨t, LevelInfo, msg, 0, [(name, SValue.vGroup [])]⟩ = some fields ∧
          (name, JValue.obj []) ∈ fields) := by
  have hmap : ∀ {T : Type} [inst : ZlogWriter T] (t : T) (k : String),
      Zerolog.mapAttr t (k, SValue.vGroup []) =
        ZlogWriter.grouped t k (fun x => Zerolog.mapAttrs x []) := by
    intro T inst t k
    rw [zl_mapAttr_def]
    simp only [SValue.resolve, Zerolog.mapResolved]
  constructor
  · intro c k
    rw [hmap, ctx_grouped_def, zl_mapAttrs_nil]
    simp [Ctx.openGroup, Ctx.closeOne]
  · intro name t msg
    refine ⟨[(LevelFieldName, JValue.str "info"), (name, JValue.obj []),
             (TimestampFieldName, JValue.time t), (MessageFieldName, JValue.str msg)], ?_, ?_⟩
    · simp only [Zerolog.SlogHandler.Handle]
      rw [zl_mapAttrs_cons, hmap, event_grouped_def, zl_mapAttrs_nil, zl_mapAttrs_nil]
      simp +decide [Logger.WithLevel, Logger.GetLevel, Zerolog.zerologLevel,
        LevelInfo, LevelDebug, LevelWarn, LevelError, Level.levelStr,
        Event.Str, Event.Time, Event.Msg, Event.closeGroup,
        Ctx.closeGroup, Ctx.closeAll, Ctx.closeN, Ctx.closeOne, Ctx.openGroup, Ctx.writeField]
    · simp

/-- C6: a JSON-marshal or text-marshal capability that returns an error is
downgraded to a string field whose value is exactly the literal
concatenation of the error prefix and the message; the error never aborts
the record, which is still emitted; on success a JSON-marshal result is
spliced as raw bytes and a text-marshal result is written as a string. -/
theorem marshal_error_fallback (c : Ctx) (k : String) (v : AnyVal) (e b s : String) :
    (v.tag = GoTag.other → v.err = none → v.stringer = none →
      v.jsonM = some (Except.error e) →
      Zerolog.mapAttrAny c k v = c.writeField k (JValue.str ("!ERROR:" ++ e))) ∧
    (v.tag = GoTag.other → v.err = none → v.stringer = none → v.jsonM = none →
      v.textM = some (Except.error e) →
      Zerolog.mapAttrAny c k v = c.writeField k (JValue.str ("!ERROR:" ++ e))) ∧
    (v.tag = GoTag.other → v.err = none → v.stringer = none →
      v.jsonM = some (Except.ok b) →
      Zerolog.mapAttrAny c k v = c.writeField k (JValue.raw b)) ∧
    (v.tag = GoTag.other → v.err = none → v.stringer = none → v.jsonM = none →
      v.textM = some (Except.ok s) →
      Zerolog.mapAttrAny c k v = c.writeField k (JValue.str s)) ∧
    (∀ (t : Int) (msg : String), v.tag = GoTag.other → v.err = none → v.stringer = none →
      v.jsonM = some (Except.error e) →
      ∃ fields,
        Zerolog.SlogHandler.Handle (fun _ => "") ⟨⟨false, none⟩, ⟨Level.trace, ⟨[], []⟩⟩⟩
            ⟨t, LevelInfo, msg, 0, [(k, SValue.vAny v)]⟩ = some fields ∧
          (k, JValue.str ("!ERROR:" ++ e)) ∈ fields) := by
  obtain ⟨tag, err, st, js, tx, fb⟩ := v
  refine ⟨?_, ?_, ?_, ?_, ?_⟩
  · intros
    subst_vars
    simp only [Zerolog.mapAttrAny]
    rfl
  · intros
    subst_vars
    simp only [Zerolog.mapAttrAny]
    rfl
  · intros
    subst_vars
    simp only [Zerolog.mapAttrAny]
    rfl
  · intros
    subst_vars
    simp only [Zerolog.mapAttrAny]
    rfl
  · intro t msg h1 h2 h3 h4
    subst_vars
    refine ⟨[(LevelFieldName, JValue.str "info"), (k, JValue.str ("!ERROR:" ++ e)),
             (TimestampFieldName, JValue.time t), (MessageFieldName, JValue.str msg)], ?_, ?_⟩
    · simp only [Zerolog.SlogHandler.Handle]
      rw [zl_mapAttrs_cons, zl_mapAttr_def, zl_mapAttrs_nil]
      simp only [SValue.resolve, Zerolog.mapResolved, Zerolog.mapAttrAny]
      simp +decide [Logger.WithLevel, Logger.GetLevel, Zerolog.zerologLevel,
        LevelInfo, LevelDebug, LevelWarn, LevelError, Level.levelStr, event_wStr_def,
        Event.Str, Event.Time, Event.Msg, Event.closeGroup,
        Ctx.closeGroup, Ctx.closeAll, Ctx.closeN, Ctx.closeOne, Ctx.openGroup, Ctx.writeField]
    · simp

/-- Witness for C6: a failing JSON marshaler with message "boom" yields the
string field value with the error prefix. -/
theorem marshal_error_fallback_witness :
    Zerolog.mapAttrAny (⟨[], []⟩ : Ctx) "k"
        ⟨GoTag.other, none, none, some (Except.error "boom"), none, JValue.obj []⟩ =
      Ctx.writeField ⟨[], []⟩ "k" (JValue.str ("!ERROR:" ++ "boom")) :=
  (marshal_error_fallback ⟨[], []⟩ "k"
      ⟨GoTag.other, none, none, some (Except.error "boom"), none, JValue.obj []⟩
      "boom" "" "").1 rfl rfl rfl rfl

theorem event_msg_isSome (e : Event) (m : String) : (Event.Msg e m).isSome = e.enabled := by
  unfold Event.Msg
  split <;> simp_all

/-- C5: with the explicit minimum-level option at Warn+1, a record at
front-end level Warn is reported disabled, yet invoking Handle anyway still
emits a serialized record: Handle does not re-check front-end enablement,
and in back-end units Warn and Warn+1 map to the same level, so the event
passes the back-end gate. -/
theorem warn_filtered_handle_still_emits (lg : Logger) (addSrc : Bool) (t : Int)
    (msg : String) (pc : Nat) (attrs : List (String × SValue)) (src : Nat → String) :
    (Zerolog.SlogHandler.Enabled ⟨⟨addSrc, some (LevelWarn + 1)⟩, lg⟩ LevelWarn = false) ∧
    ((Zerolog.SlogHandler.Handle src ⟨⟨addSrc, some (LevelWarn + 1)⟩, lg⟩
        ⟨t, LevelWarn, msg, pc, attrs⟩).isSome = true) := by
  constructor
  · unfold Zerolog.SlogHandler.Enabled
    simp [LevelWarn]
  · simp only [Zerolog.SlogHandler.Handle]
    rw [event_msg_isSome]
    show (if addSrc ∧ 0 < pc then Event.Str _ CallerFieldName (src pc) else _).enabled = true
    have hbase : (Zerolog.mapAttrs
        ((lg.Level (Zerolog.zerologLevel (LevelWarn + 1))).WithLevel
          (Zerolog.zerologLevel LevelWarn)) attrs).enabled = true := by
      rw [zl_event_mapAttrs_enabled]
      simp +decide [Logger.WithLevel, Logger.Level, Zerolog.zerologLevel,
        LevelWarn, LevelDebug, LevelInfo, LevelError]
    split
    · exact hbase
    · exact hbase

theorem emit_top_level (e : Event) (t : Int) (m : String) (fields : List (String × JValue))
    (hH : Event.Msg (Event.Time (Event.closeGroup e (-1)) TimestampFieldName t) m = some fields) :
    (TimestampFieldName, JValue.time t) ∈ fields ∧ (MessageFieldName, JValue.str m) ∈ fields := by
  have h1 : (Event.closeGroup e (-1)).ctx.stack = [] := by
    show (e.ctx.closeGroup (-1)).stack = []
    unfold Ctx.closeGroup
    rw [if_pos (by norm_num)]
    exact ctx_closeAll_stack_nil _
  have h2 : (Event.Time (Event.closeGroup e (-1)) TimestampFieldName t).ctx =
      { top := (Event.closeGroup e (-1)).ctx.top ++ [(TimestampFieldName, JValue.time t)]
        stack := [] } := by
    show (Event.closeGroup e (-1)).ctx.writeField TimestampFieldName (JValue.time t) = _
    rw [ctx_writeField_of_nil _ _ _ h1]
  unfold Event.Msg at hH
  split at hH
  · injection hH with hf
    subst hf
    rw [h2, ctx_writeField_of_nil _ _ _ rfl, ctx_closeAll_of_nil _ rfl]
    simp
  · simp at hH

/-- C7: in every record emitted by Handle, the timestamp field and the
message field appear at the top level of the serialized object: Handle
closes all open groups (closeGroup with -1) after processing attributes and
call-site metadata and only then writes timestamp and message, so they can
never land inside a nested group. -/
theorem timestamp_message_top_level (src : Nat → String) (h : Zerolog.SlogHandler)
    (rec : SRecord) (fields : List (String × JValue))
    (hH : Zerolog.SlogHandler.Handle src h rec = some fields) :
    (TimestampFieldName, JValue.time rec.time) ∈ fields ∧
    (MessageFieldName, JValue.str rec.msg) ∈ fields := by
  simp only [Zerolog.SlogHandler.Handle] at hH
  exact emit_top_level _ _ _ _ hH

/-- Witness for C7: a concrete record handled by a handler whose bound
context still has an open group; the emitted record carries timestamp and
message at top level. -/
theorem timestamp_message_top_level_witness :
    (TimestampFieldName, JValue.time 5) ∈
        [(LevelFieldName, JValue.str "info"), ("g", JValue.obj []),
         (TimestampFieldName, JValue.time 5), (MessageFieldName, JValue.str "m")] ∧
    (MessageFieldName, JValue.str "m") ∈
        [(LevelFieldName, JValue.str "info"), ("g", JValue.obj []),
         (TimestampFieldName, JValue.time 5), (MessageFieldName, JValue.str "m")] :=
  timestamp_message_top_level (fun _ => "")
    ⟨⟨false, none⟩, ⟨Level.trace, ⟨[], [("g", [])]⟩⟩⟩ ⟨5, 0, "m", 0, []⟩ _
    (by
      simp only [Zerolog.SlogHandler.Handle]
      rw [zl_mapAttrs_nil]
      simp +decide [Logger.WithLevel, Logger.GetLevel, Zerolog.zerologLevel,
        LevelInfo, LevelDebug, LevelWarn, LevelError, Level.levelStr,
        Event.Str, Event.Time, Event.Msg, Event.closeGroup,
        Ctx.closeGroup, Ctx.closeAll, Ctx.closeN, Ctx.closeOne, Ctx.openGroup, Ctx.writeField])

/-- C9: the package-zslog adapter (wrapping the logging-facade logger type)
and the package-zerolog adapter (wrapping the core logger type directly)
are functionally identical: for equally configured instances, Enabled
agrees on every level, Handle produces the same serialized record for
every record, and WithAttrs/WithGroup commute with the configuration
translation, so every call sequence yields the same observable results. -/
theorem adapters_equivalent :
    (∀ (h : Zerolog.SlogHandler) (lvl : Int),
      Zerolog.SlogHandler.Enabled h lvl = Zslog.Handler.Enabled (toZslog h) lvl) ∧
    (∀ (src : Nat → String) (h : Zerolog.SlogHandler) (rec : SRecord),
      Zerolog.SlogHandler.Handle src h rec = Zslog.Handler.Handle src (toZslog h) rec) ∧
    (∀ (h : Zerolog.SlogHandler) (attrs : List (String × SValue)),
      toZslog (h.WithAttrs attrs) = (toZslog h).WithAttrs attrs) ∧
    (∀ (h : Zerolog.SlogHandler) (name : String),
      toZslog (h.WithGroup name) = (toZslog h).WithGroup name) := by
  refine ⟨?_, ?_, ?_, ?_⟩
  · intro h lvl
    obtain ⟨⟨a, lv⟩, lg⟩ := h
    cases lv <;> rfl
  · intro src h rec
    obtain ⟨⟨a, lv⟩, lg⟩ := h
    cases lv <;>
    · simp only [Zerolog.SlogHandler.Handle, Zslog.Handler.Handle, toZslog,
        zl_zs_mapAttrs_eq]
      rfl
  · intro h attrs
    obtain ⟨⟨a, lv⟩, lg⟩ := h
    simp only [Zerolog.SlogHandler.WithAttrs, Zslog.Handler.WithAttrs, toZslog,
      zl_zs_mapAttrs_eq]
  · intro h name
    obtain ⟨⟨a, lv⟩, lg⟩ := h
    rfl
